import Mathlib

/-!
Verification of the giveaway resolution engine in `src/app.js`.

The model is a shallow embedding of the engine: the drawing/entry data
model, the winner resolution algorithm (`resolveGiveaway`, lines 140-310),
the payout computation, the double-down button and timeout handlers
(lines 383-453 and 290-305), and entry submission (`modal_join`,
lines 455-509).

Conventions of the embedding:
* Random.org responses are a list `List (Option Int)` consumed in call
  order; `none` means the call failed (threw).
* JS numbers are modelled as rationals; `Math.floor` is the integer floor.
* JS `Array.prototype.sort` is stable, so it is modelled by a stable sort
  (`List.insertionSort`), which any stable sort agrees with.
* The persisted store is the list of giveaways; each handler returns the
  store as persisted by its last successful save (an uncaught throw before
  any save leaves the store unchanged, because every handler re-reads the
  file first).
-/

namespace GiveawayApp

/-- One participant entry, as stored by the `modal_join` handler. -/
structure Entry where
  entryId : String
  userId : String
  username : String
  main : Int
  tiebreak : Int
  stakeC : Option ℚ
  choice : String
  riskProfile : String
  joinedAt : Int
deriving DecidableEq, Repr

/-- The winner record written by `resolveGiveaway` (app.js lines 255-265). -/
structure Winner where
  userId : String
  username : String
  main : Int
  tiebreak : Int
  choice : String
  stake : ℚ
  payoutC : ℚ
  baseWinC : ℚ
  potShareC : ℚ
deriving DecidableEq, Repr

/-- The double-down sub-state (app.js line 287). -/
structure DDState where
  state : String
  deadline : Int
  winnerId : String
deriving DecidableEq, Repr

/-- The diagnostic `result` field of a giveaway. -/
inductive GResult where
  | errorRes (message : String)
  | noWinners (roll : Int)
  | resolvedRes (roll : Int) (resolvedCount : Nat)
deriving DecidableEq, Repr

/-- A drawing (giveaway) aggregate. -/
structure Giveaway where
  id : String
  prize : String
  pot : ℚ
  entries : List Entry
  ended : Bool
  roll : Option Int
  winner : Option Winner
  result : Option GResult
  doubleDown : Option DDState
deriving DecidableEq, Repr

/-- A risk profile row of the configuration. -/
structure RiskProfile where
  potSharePercent : ℚ
deriving DecidableEq, Repr

/-- The injected configuration (`config.json`). -/
structure Config where
  pot : ℚ
  houseEdge : Option ℚ
  riskProfiles : String → Option RiskProfile

/-- Finding a giveaway: `data.giveaways.find(x => x.id === gid)`. -/
def findG (gs : List Giveaway) (gid : String) : Option Giveaway :=
  gs.find? (fun x => x.id == gid)

/-- Persisting the mutated object: the handler mutates the found giveaway in
place and rewrites the whole collection, so exactly the first giveaway whose
id matches is replaced. -/
def setG : List Giveaway → String → Giveaway → List Giveaway
  | [], _, _ => []
  | x :: xs, gid, g' => if x.id == gid then g' :: xs else x :: setG xs gid g'

/-- One Random.org call: the next response in the oracle list. -/
def drawNext (src : List (Option Int)) : Option Int × List (Option Int) :=
  (src.head?.join, src.tail)

/-- Candidate filter (app.js lines 165-169): under means `roll <= main`,
over means `roll >= main`, anything else never matches. -/
def candidate (roll : Int) (e : Entry) : Bool :=
  if e.choice == "under" then decide (roll ≤ e.main)
  else if e.choice == "over" then decide (e.main ≤ roll)
  else false

/-- Order induced by the JS sort comparator `(a,b) => b.tiebreak - a.tiebreak`:
`a` may stay before `b` iff the comparator is nonpositive, i.e. descending
tiebreak.  JS sort is stable, and a stable sort is uniquely determined by
its comparator, so it is modelled by the stable `List.insertionSort`. -/
def tbGe (a b : Entry) : Prop := b.tiebreak ≤ a.tiebreak

instance : DecidableRel tbGe :=
  fun a b => inferInstanceAs (Decidable (b.tiebreak ≤ a.tiebreak))

instance : IsTotal Entry tbGe := ⟨fun a b => le_total b.tiebreak a.tiebreak⟩

instance : IsTrans Entry tbGe := ⟨fun _ _ _ hab hbc => le_trans hbc hab⟩

/-- Resolution of one same-`main` group of candidates (app.js lines
196-216): a singleton group stands; otherwise sort descending by tiebreak,
keep the top entry when it is the unique maximum, otherwise draw an index
into the tied top entries, falling back to the first on failure. -/
def resolveGroup (arr : List Entry) (src : List (Option Int)) :
    Option Entry × List (Option Int) :=
  if arr.length = 1 then (arr.head?, src)
  else
    match arr.insertionSort tbGe with
    | [] => (none, src)
    | top :: rest =>
      let tiedTop := (top :: rest).filter (fun e => e.tiebreak == top.tiebreak)
      if tiedTop.length = 1 then (some top, src)
      else
        match drawNext src with
        | (some r, srcA) => ((if 0 ≤ r then tiedTop[r.toNat]? else none), srcA)
        | (none, srcA) => (tiedTop.head?, srcA)

/-- Group keys (app.js lines 188-192): integer-like JS object keys
enumerate in ascending numeric order, and stored `main` values are
validated integers in 0..100, so `Object.keys(grouped)` is the set of
distinct mains in ascending order. -/
def mainKeys (cands : List Entry) : List Int :=
  ((cands.map Entry.main).dedup).insertionSort (· ≤ ·)

/-- Resolves every group in key order, threading the random source. -/
def resolveGroups (cands : List Entry) :
    List Int → List (Option Int) → List (Option Entry) × List (Option Int)
  | [], src => ([], src)
  | k :: ks, src =>
    let p := resolveGroup (cands.filter (fun e => e.main == k)) src
    let q := resolveGroups cands ks p.2
    (p.1 :: q.1, q.2)

/-- Final pick among the group representatives (app.js lines 219-228):
a single representative wins outright, otherwise an index is drawn over
`[0, m-1]`, falling back to the first representative on failure. -/
def pickFinal (resolved : List (Option Entry)) (src : List (Option Int)) :
    Option Entry × List (Option Int) :=
  if resolved.length = 1 then (resolved.head?.join, src)
  else
    match drawNext src with
    | (some idx, srcA) =>
        ((if 0 ≤ idx then resolved[idx.toNat]? else none).join, srcA)
    | (none, srcA) => (resolved.head?.join, srcA)

/-- Winner selection among the candidates (app.js lines 186-228): group by
main, resolve each group, then the final pick.  Also returns the number of
group representatives (`resolved.length`). -/
def pickWinner (cands : List Entry) (src : List (Option Int)) :
    Option Entry × Nat × List (Option Int) :=
  let gr := resolveGroups cands (mainKeys cands) src
  let fin := pickFinal gr.1 gr.2
  (fin.1, gr.1.length, fin.2)

/-- Pot share percent lookup (app.js lines 246-247): the entry's profile,
falling back to the low profile when unknown, then to zero when the low
profile is missing too. -/
def potSharePercentOf (cfg : Config) (rp : String) : ℚ :=
  (((cfg.riskProfiles rp).orElse (fun _ => cfg.riskProfiles "low")).map
    RiskProfile.potSharePercent).getD 0

/-- Payout computation for the final winner and the resulting pot
(app.js lines 234-253): clamped probability, house-edged multiplier, base
win truncated to two decimals, pot share floored, pot reduced by the share
and floored at zero. -/
def payoutWinner (cfg : Config) (fw : Entry) (pot : ℚ) : Winner × ℚ :=
  let houseEdge := cfg.houseEdge.getD (2/100)
  let prob0 : ℚ :=
    if fw.choice == "under" then (fw.main + 1) / 101 else (101 - fw.main) / 101
  let prob := if prob0 ≤ 0 then 1/101 else prob0
  let multiplier := (1 / prob) * (1 - houseEdge)
  let stake := fw.stakeC.getD 1
  let baseWin : ℚ := (⌊stake * multiplier * 100⌋ : ℚ) / 100
  let potShareAmount : ℚ := (⌊pot * (potSharePercentOf cfg fw.riskProfile / 100)⌋ : ℚ)
  ({ userId := fw.userId, username := fw.username, main := fw.main,
     tiebreak := fw.tiebreak, choice := fw.choice, stake := stake,
     payoutC := baseWin + potShareAmount, baseWinC := baseWin,
     potShareC := potShareAmount },
   max 0 (pot - potShareAmount))

/-- Six hours in milliseconds (app.js line 286). -/
def sixHoursMs : Int := 6 * 60 * 60 * 1000

/-- The resolution pipeline `resolveGiveaway` (app.js lines 140-310).
`announceOk` says whether the channel fetch and announcement edit in the
`try` block at lines 271-306 succeed; when they fail, the `catch` at line
307 means the double-down arming at lines 286-288 never runs.  The guard
at line 143 returns early for a missing or already ended giveaway, and the
`ended` flag is set at line 144, before the roll is requested. -/
def resolveGiveaway (cfg : Config) (now : Int) (announceOk : Bool)
    (gs : List Giveaway) (gid : String) (src : List (Option Int)) :
    List Giveaway × List (Option Int) :=
  match findG gs gid with
  | none => (gs, src)
  | some g =>
    if g.ended then (gs, src)
    else
      match drawNext src with
      | (none, src1) =>
          (setG gs gid
            { g with
                ended := true,
                result := some (GResult.errorRes "random.org failed") },
           src1)
      | (some roll, src1) =>
        let cands := g.entries.filter (candidate roll)
        if cands.isEmpty then
          (setG gs gid
            { g with
                ended := true,
                roll := some roll,
                winner := none,
                result := some (GResult.noWinners roll) },
           src1)
        else
          match pickWinner cands src1 with
          | (none, _, src2) => (gs, src2)
          | (some fw, rcount, src2) =>
            let pr := payoutWinner cfg fw g.pot
            let g3 : Giveaway :=
              { g with
                  ended := true,
                  roll := some roll,
                  pot := pr.2,
                  winner := some pr.1,
                  result := some (GResult.resolvedRes roll rcount) }
            if announceOk then
              (setG gs gid
                { g3 with
                    doubleDown := some
                      { state := "pending", deadline := now + sixHoursMs,
                        winnerId := fw.userId } },
               src2)
            else (setG gs gid g3, src2)

/-- Replies of the double-down button handler. -/
inductive DDReply where
  | notFound
  | wrongUser
  | noLongerAvailable
  | declined
  | ddWin (add : ℚ)
  | ddLose (ret : ℚ)
  | randomFailed
deriving DecidableEq, Repr

/-- The `dd_yes` / `dd_no` button handler (app.js lines 383-453).
`accept` is true for `dd_yes`.  Guards in source order: giveaway and
winner must exist, only the winner may respond, the sub-game must still
be pending.  A decline sets state `no`; an accept draws over `[0,100]`:
at least 50 wins the whole pot, below 50 returns the floored base win to
the pot and claws it back from the payout, floored at zero. -/
def ddRespond (gs : List Giveaway) (gid winnerId userId : String)
    (accept : Bool) (src : List (Option Int)) :
    List Giveaway × List (Option Int) × DDReply :=
  match findG gs gid with
  | none => (gs, src, DDReply.notFound)
  | some g =>
    match g.winner with
    | none => (gs, src, DDReply.notFound)
    | some w =>
      if userId ≠ winnerId then (gs, src, DDReply.wrongUser)
      else
        match g.doubleDown with
        | none => (gs, src, DDReply.noLongerAvailable)
        | some dd =>
          if dd.state ≠ "pending" then (gs, src, DDReply.noLongerAvailable)
          else if !accept then
            (setG gs gid { g with doubleDown := some { dd with state := "no" } },
             src, DDReply.declined)
          else
            match drawNext src with
            | (none, srcA) => (gs, srcA, DDReply.randomFailed)
            | (some r, srcA) =>
              if 50 ≤ r then
                (setG gs gid
                  { g with
                      pot := 0,
                      winner := some { w with payoutC := w.payoutC + g.pot },
                      doubleDown := some { dd with state := "yes_win" } },
                 srcA, DDReply.ddWin g.pot)
              else
                (setG gs gid
                  { g with
                      pot := g.pot + max 0 (⌊w.baseWinC⌋ : ℚ),
                      winner := some
                        { w with
                            payoutC :=
                              max 0 (w.payoutC - max 0 (⌊w.baseWinC⌋ : ℚ)) },
                      doubleDown := some { dd with state := "yes_lose" } },
                 srcA, DDReply.ddLose (max 0 (⌊w.baseWinC⌋ : ℚ)))

/-- The double-down timeout callback (app.js lines 290-305): auto-decline
only while the sub-game is still pending. -/
def ddTimeout (gs : List Giveaway) (gid : String) : List Giveaway :=
  match findG gs gid with
  | none => gs
  | some gg =>
    match gg.doubleDown with
    | none => gs
    | some dd =>
      if dd.state == "pending" then
        setG gs gid { gg with doubleDown := some { dd with state := "no" } }
      else gs

/-- Replies of the `modal_join` submission handler. -/
inductive SubmitReply where
  | invalidMain
  | invalidTiebreak
  | invalidChoice
  | invalidRisk
  | notFound
  | alreadyEnded
  | joined
deriving DecidableEq, Repr

/-- Entry submission (`modal_join` handler, app.js lines 455-509).
`mainP` and `tiebreakP` are the `parseInt` results (`none` for NaN),
`stakeP` is the `parseFloat` result of the stake field with `none` for an
empty field, which defaults to `1`; the stake value itself is never
validated.  Checks in source order: main range, tiebreak range, choice,
risk, giveaway exists, giveaway not ended; on success the entry is
appended and the store saved. -/
def submitEntry (gs : List Giveaway) (gid : String)
    (userId username : String) (mainP tiebreakP : Option Int)
    (stakeP : Option ℚ) (choice risk : String) (now : Int) :
    List Giveaway × SubmitReply :=
  match mainP with
  | none => (gs, SubmitReply.invalidMain)
  | some main =>
    if main < 0 ∨ 100 < main then (gs, SubmitReply.invalidMain)
    else
      match tiebreakP with
      | none => (gs, SubmitReply.invalidTiebreak)
      | some tiebreak =>
        if tiebreak < 0 ∨ 100 < tiebreak then (gs, SubmitReply.invalidTiebreak)
        else if choice ≠ "under" ∧ choice ≠ "over" then
          (gs, SubmitReply.invalidChoice)
        else if risk ≠ "low" ∧ risk ≠ "high" then
          (gs, SubmitReply.invalidRisk)
        else
          match findG gs gid with
          | none => (gs, SubmitReply.notFound)
          | some g =>
            if g.ended then (gs, SubmitReply.alreadyEnded)
            else
              (setG gs gid
                { g with
                    entries := g.entries ++
                      [{ entryId := userId ++ "-" ++ toString now,
                         userId := userId, username := username,
                         main := main, tiebreak := tiebreak,
                         stakeC := some (stakeP.getD 1),
                         choice := choice, riskProfile := risk,
                         joinedAt := now }] },
               SubmitReply.joined)

/-! Helper lemmas about the store. -/

lemma findG_id {gs : List Giveaway} {gid : String} {g : Giveaway}
    (h : findG gs gid = some g) : g.id = gid := by
  have := List.find?_some h
  simpa using this

lemma mem_setG {gs : List Giveaway} {gid : String} {g' x : Giveaway}
    (h : x ∈ setG gs gid g') : x ∈ gs ∨ x = g' := by
  induction gs with
  | nil => simp [setG] at h
  | cons y ys ih =>
    rw [setG] at h
    by_cases hy : (y.id == gid) = true
    · rw [if_pos hy] at h
      rcases List.mem_cons.mp h with h1 | h1
      · exact Or.inr h1
      · exact Or.inl (List.mem_cons_of_mem _ h1)
    · rw [if_neg hy] at h
      rcases List.mem_cons.mp h with h1 | h1
      · exact Or.inl (h1 ▸ List.mem_cons_self _ _)
      · rcases ih h1 with h2 | h2
        · exact Or.inl (List.mem_cons_of_mem _ h2)
        · exact Or.inr h2

lemma findG_setG {gs : List Giveaway} {gid : String} {g g' : Giveaway}
    (hfind : findG gs gid = some g) (hid : g'.id = gid) :
    findG (setG gs gid g') gid = some g' := by
  induction gs with
  | nil => simp [findG] at hfind
  | cons y ys ih =>
    rw [setG]
    by_cases hy : (y.id == gid) = true
    · rw [if_pos hy]
      simp [findG, List.find?_cons, hid]
    · rw [if_neg hy]
      simp only [findG, List.find?_cons, hy, cond_false] at hfind ⊢
      exact ih hfind

/-- Resolution is a no-op on an already ended giveaway (the guard at
app.js line 143). -/
lemma resolve_of_ended (cfg : Config) (now : Int) (a : Bool)
    (gs : List Giveaway) (gid : String) (src : List (Option Int))
    {g : Giveaway} (hfind : findG gs gid = some g) (hE : g.ended = true) :
    resolveGiveaway cfg now a gs gid src = (gs, src) := by
  unfold resolveGiveaway
  rw [hfind]
  simp [hE]

/-- Resolution is a no-op on a missing giveaway. -/
lemma resolve_of_missing (cfg : Config) (now : Int) (a : Bool)
    (gs : List Giveaway) (gid : String) (src : List (Option Int))
    (hfind : findG gs gid = none) :
    resolveGiveaway cfg now a gs gid src = (gs, src) := by
  unfold resolveGiveaway
  rw [hfind]

/-- C5: invoking resolution a second time when the drawing's ended flag is
already true performs no further state change: the persisted state after
the two calls equals the state after the first call. -/
theorem c5_resolution_idempotent (cfg cfg' : Config) (now now' : Int)
    (a a' : Bool) (gs : List Giveaway) (gid : String)
    (src src' : List (Option Int)) (g1 : Giveaway)
    (h : findG (resolveGiveaway cfg now a gs gid src).1 gid = some g1)
    (hE : g1.ended = true) :
    resolveGiveaway cfg' now' a' (resolveGiveaway cfg now a gs gid src).1 gid src' =
      ((resolveGiveaway cfg now a gs gid src).1, src') :=
  resolve_of_ended cfg' now' a' _ gid src' h hE

/-- C1: an entry is a winner candidate in resolution iff (choice under and
roll ≤ main) or (choice over and roll ≥ main); when no entry is a
candidate, resolution terminates with a no-winner result, a null winner,
the ended flag true, and the pot unchanged. -/
theorem c1_candidate_filter_and_no_winner (r : Int)
    (hr0 : 0 ≤ r) (hr1 : r ≤ 100) :
    (∀ e : Entry, candidate r e = true ↔
      ((e.choice = "under" ∧ r ≤ e.main) ∨ (e.choice = "over" ∧ e.main ≤ r))) ∧
    (∀ (cfg : Config) (now : Int) (aok : Bool) (gs : List Giveaway)
       (gid : String) (rest : List (Option Int)) (g : Giveaway),
      findG gs gid = some g → g.ended = false →
      g.entries.filter (candidate r) = [] →
      resolveGiveaway cfg now aok gs gid (some r :: rest) =
        (setG gs gid
          { g with
              ended := true, roll := some r, winner := none,
              result := some (GResult.noWinners r) },
         rest)) := by
  constructor
  · intro e
    unfold candidate
    by_cases hu : e.choice = "under"
    · simp [hu]
    · by_cases ho : e.choice = "over"
      · simp [hu, ho]
      · simp [hu, ho]
  · intro cfg now aok gs gid rest g hfind hend hfilter
    have hno : ∀ a ∈ g.entries, candidate r a = false := by
      intro a ha
      by_contra hc
      have : a ∈ g.entries.filter (candidate r) :=
        List.mem_filter.mpr ⟨ha, by simpa using hc⟩
      simp [hfilter] at this
    unfold resolveGiveaway
    rw [hfind]
    simp [hend, drawNext, hno]
    intro x hx hcand
    rw [hno x hx] at hcand
    simp at hcand

/-- Witness for C1 at the concrete roll 3. -/
theorem c1_witness :
    (0 ≤ (3 : Int)) ∧ ((3 : Int) ≤ 100) ∧
    ((∀ e : Entry, candidate 3 e = true ↔
      ((e.choice = "under" ∧ 3 ≤ e.main) ∨ (e.choice = "over" ∧ e.main ≤ 3))) ∧
    (∀ (cfg : Config) (now : Int) (aok : Bool) (gs : List Giveaway)
       (gid : String) (rest : List (Option Int)) (g : Giveaway),
      findG gs gid = some g → g.ended = false →
      g.entries.filter (candidate 3) = [] →
      resolveGiveaway cfg now aok gs gid (some 3 :: rest) =
        (setG gs gid
          { g with
              ended := true, roll := some 3, winner := none,
              result := some (GResult.noWinners 3) },
         rest))) :=
  ⟨by decide, by decide,
   c1_candidate_filter_and_no_winner 3 (by decide) (by decide)⟩

/-! Concrete fixtures used by witnesses and counterexamples. -/

/-- A concrete configuration with the default values of `config.json`. -/
def cfg0 : Config :=
  { pot := 1000, houseEdge := some (2/100),
    riskProfiles := fun s =>
      if s = "low" then some { potSharePercent := 30 }
      else if s = "high" then some { potSharePercent := 70 }
      else none }

/-- A concrete fresh giveaway with no entries. -/
def gEmpty : Giveaway :=
  { id := "G-1", prize := "p", pot := 1000, entries := [], ended := false,
    roll := none, winner := none, result := none, doubleDown := none }

/-- C6 counterexample: on the concrete fresh giveaway, when the roll draw
fails the code records the error but the ended flag IS set (it is set at
app.js line 144, before the draw), and a retry is a no-op, contradicting
the claim that the drawing is left resolvable again. -/
theorem c6_counterexample_ended_set_on_roll_failure :
    (findG (resolveGiveaway cfg0 0 true [gEmpty] "G-1" [none]).1 "G-1").map
        Giveaway.ended = some true ∧
    (resolveGiveaway cfg0 0 true
        (resolveGiveaway cfg0 0 true [gEmpty] "G-1" [none]).1 "G-1"
        [some 7]).1 =
      (resolveGiveaway cfg0 0 true [gEmpty] "G-1" [none]).1 := by
  decide

/-- C6 amended: if the roll draw fails during resolution, the code records
an error result on the drawing and stops, but the ended flag has already
been set and is persisted with the error, so the drawing is NOT resolvable
again: any further resolution call is a no-op. -/
theorem c6_amended_roll_failure_records_error_but_ends
    (cfg : Config) (now : Int) (aok : Bool) (gs : List Giveaway)
    (gid : String) (rest : List (Option Int)) (g : Giveaway)
    (hfind : findG gs gid = some g) (hend : g.ended = false) :
    resolveGiveaway cfg now aok gs gid (none :: rest) =
      (setG gs gid
        { g with
            ended := true,
            result := some (GResult.errorRes "random.org failed") },
       rest) ∧
    (∀ (cfg' : Config) (now' : Int) (aok' : Bool) (src' : List (Option Int)),
      resolveGiveaway cfg' now' aok'
        (setG gs gid
          { g with
              ended := true,
              result := some (GResult.errorRes "random.org failed") })
        gid src' =
        (setG gs gid
          { g with
              ended := true,
              result := some (GResult.errorRes "random.org failed") },
         src')) := by
  constructor
  · unfold resolveGiveaway
    rw [hfind]
    simp [hend, drawNext]
  · intro cfg' now' aok' src'
    have hid0 := findG_id hfind
    have hid : (({ g with
        ended := true,
        result := some (GResult.errorRes "random.org failed") } :
        Giveaway)).id = gid := hid0
    exact resolve_of_ended cfg' now' aok' _ gid src'
      (findG_setG hfind hid) rfl

/-- Witness for the amended C6 at a concrete input. -/
theorem c6_amended_witness :
    findG [gEmpty] "G-1" = some gEmpty ∧ gEmpty.ended = false ∧
    (resolveGiveaway cfg0 0 true [gEmpty] "G-1" [none] =
      (setG [gEmpty] "G-1"
        { gEmpty with
            ended := true,
            result := some (GResult.errorRes "random.org failed") },
       []) ∧
    (∀ (cfg' : Config) (now' : Int) (aok' : Bool) (src' : List (Option Int)),
      resolveGiveaway cfg' now' aok'
        (setG [gEmpty] "G-1"
          { gEmpty with
              ended := true,
              result := some (GResult.errorRes "random.org failed") })
        "G-1" src' =
        (setG [gEmpty] "G-1"
          { gEmpty with
              ended := true,
              result := some (GResult.errorRes "random.org failed") },
         src'))) :=
  ⟨by decide, by decide,
   c6_amended_roll_failure_records_error_but_ends cfg0 0 true [gEmpty]
     "G-1" [] gEmpty (by decide) (by decide)⟩

/-- C7: once the double-down sub-game has left the pending state, every
further trigger by the winner (accept or decline) is a no-op replying
"no longer available", and the timeout handler is a no-op too: sub-game
state, winner payout and pot are all unchanged. -/
theorem c7_double_down_no_reentry (gs : List Giveaway)
    (gid wid uid : String) (acc : Bool) (src : List (Option Int))
    (g : Giveaway) (w : Winner) (dd : DDState)
    (hfind : findG gs gid = some g) (hw : g.winner = some w)
    (huid : uid = wid) (hdd : g.doubleDown = some dd)
    (hnp : dd.state ≠ "pending") :
    ddRespond gs gid wid uid acc src = (gs, src, DDReply.noLongerAvailable) ∧
    ddTimeout gs gid = gs := by
  constructor
  · unfold ddRespond
    rw [hfind]
    simp [hw, huid, hdd, hnp]
  · unfold ddTimeout
    rw [hfind]
    simp [hdd, hnp]

/-- A concrete winner record, the outcome of the concrete resolution used
in the fixtures. -/
def w0 : Winner :=
  { userId := "u1", username := "alice", main := 50, tiebreak := 10,
    choice := "under", stake := 1, payoutC := 494, baseWinC := 194,
    potShareC := 300 }

/-- A concrete resolved giveaway whose double-down sub-game was declined. -/
def gDeclined : Giveaway :=
  { id := "G-1", prize := "p", pot := 700, entries := [], ended := true,
    roll := some 50, winner := some w0,
    result := some (GResult.resolvedRes 50 1),
    doubleDown := some { state := "no", deadline := 100, winnerId := "u1" } }

/-- Witness for C7 at a concrete declined sub-game. -/
theorem c7_witness :
    findG [gDeclined] "G-1" = some gDeclined ∧
    gDeclined.winner = some w0 ∧
    gDeclined.doubleDown =
      some { state := "no", deadline := 100, winnerId := "u1" } ∧
    ("no" : String) ≠ "pending" ∧
    (ddRespond [gDeclined] "G-1" "u1" "u1" true [some 80] =
      ([gDeclined], [some 80], DDReply.noLongerAvailable) ∧
    ddTimeout [gDeclined] "G-1" = [gDeclined]) :=
  ⟨by decide, by decide, by decide, by decide,
   c7_double_down_no_reentry [gDeclined] "G-1" "u1" "u1" true [some 80]
     gDeclined w0 { state := "no", deadline := 100, winnerId := "u1" }
     (by decide) (by decide) rfl (by decide) (by decide)⟩

/-- C4: on a pending double-down, an accept by the winning user draws one
integer; at least 50 moves the state to yes_win, adds the whole pot to the
payout and zeroes the pot; below 50 moves the state to yes_lose, returns
the floored base win to the pot and subtracts it from the payout, floored
at zero so the winner never owes the house. -/
theorem c4_double_down_accept (gs : List Giveaway) (gid wid uid : String)
    (rest : List (Option Int)) (g : Giveaway) (w : Winner) (dd : DDState)
    (r : Int)
    (hfind : findG gs gid = some g) (hw : g.winner = some w)
    (huid : uid = wid) (hdd : g.doubleDown = some dd)
    (hp : dd.state = "pending")
    (hr0 : 0 ≤ r) (hr1 : r ≤ 100) (hbw : 0 ≤ w.baseWinC) :
    (50 ≤ r →
      ddRespond gs gid wid uid true (some r :: rest) =
        (setG gs gid
          { g with
              pot := 0,
              winner := some { w with payoutC := w.payoutC + g.pot },
              doubleDown := some { dd with state := "yes_win" } },
         rest, DDReply.ddWin g.pot)) ∧
    (r < 50 →
      ddRespond gs gid wid uid true (some r :: rest) =
        (setG gs gid
          { g with
              pot := g.pot + (⌊w.baseWinC⌋ : ℚ),
              winner := some
                { w with payoutC := max 0 (w.payoutC - (⌊w.baseWinC⌋ : ℚ)) },
              doubleDown := some { dd with state := "yes_lose" } },
         rest, DDReply.ddLose (⌊w.baseWinC⌋ : ℚ)) ∧
      0 ≤ max (0 : ℚ) (w.payoutC - (⌊w.baseWinC⌋ : ℚ))) := by
  have hmx : max (0 : ℚ) ((⌊w.baseWinC⌋ : ℚ)) = ((⌊w.baseWinC⌋ : ℚ)) :=
    max_eq_right (by exact_mod_cast Int.floor_nonneg.mpr hbw)
  constructor
  · intro h50
    unfold ddRespond
    rw [hfind]
    simp [hw, huid, hdd, hp, drawNext, h50]
  · intro h50
    refine ⟨?_, le_max_left _ _⟩
    unfold ddRespond
    rw [hfind]
    simp [hw, huid, hdd, hp, drawNext, hmx, show ¬(50 ≤ r) from not_le.mpr h50]

/-- A concrete resolved giveaway with a still pending double-down. -/
def gPending : Giveaway :=
  { id := "G-1", prize := "p", pot := 700, entries := [], ended := true,
    roll := some 50, winner := some w0,
    result := some (GResult.resolvedRes 50 1),
    doubleDown := some { state := "pending", deadline := 100, winnerId := "u1" } }

/-- Witness for C4 at the concrete pending sub-game with roll 49. -/
theorem c4_witness :
    findG [gPending] "G-1" = some gPending ∧
    gPending.winner = some w0 ∧
    gPending.doubleDown =
      some { state := "pending", deadline := 100, winnerId := "u1" } ∧
    (0 : ℚ) ≤ w0.baseWinC ∧
    ((50 ≤ (49 : Int) →
      ddRespond [gPending] "G-1" "u1" "u1" true [some 49] =
        (setG [gPending] "G-1"
          { gPending with
              pot := 0,
              winner := some { w0 with payoutC := w0.payoutC + gPending.pot },
              doubleDown := some
                { state := "yes_win", deadline := 100, winnerId := "u1" } },
         [], DDReply.ddWin gPending.pot)) ∧
    ((49 : Int) < 50 →
      ddRespond [gPending] "G-1" "u1" "u1" true [some 49] =
        (setG [gPending] "G-1"
          { gPending with
              pot := gPending.pot + (⌊w0.baseWinC⌋ : ℚ),
              winner := some
                { w0 with
                    payoutC := max 0 (w0.payoutC - (⌊w0.baseWinC⌋ : ℚ)) },
              doubleDown := some
                { state := "yes_lose", deadline := 100, winnerId := "u1" } },
         [], DDReply.ddLose (⌊w0.baseWinC⌋ : ℚ)) ∧
      0 ≤ max (0 : ℚ) (w0.payoutC - (⌊w0.baseWinC⌋ : ℚ)))) :=
  ⟨by decide, by decide, by decide, by norm_num [w0],
   c4_double_down_accept [gPending] "G-1" "u1" "u1" [] gPending w0
     { state := "pending", deadline := 100, winnerId := "u1" } 49
     (by decide) (by decide) rfl (by decide) (by decide)
     (by decide) (by decide) (by norm_num [w0])⟩

/-- Pot values of all giveaways stay in place or come from the branch
result when the store is rewritten. -/
lemma pot_nonneg_setG {gs : List Giveaway} {gid : String} {g' : Giveaway}
    (hpos : ∀ g ∈ gs, 0 ≤ g.pot) (h' : 0 ≤ g'.pot) :
    ∀ x ∈ setG gs gid g', 0 ≤ x.pot := by
  intro x hx
  rcases mem_setG hx with h | h
  · exact hpos x h
  · exact h ▸ h'

/-- C9: when every pot in the store is non-negative, it stays non-negative
after any resolution outcome and after any double-down outcome. -/
theorem c9_pot_nonneg (cfg : Config) (now : Int) (aok : Bool)
    (gs : List Giveaway) (gid wid uid : String) (acc : Bool)
    (src : List (Option Int))
    (hpos : ∀ g ∈ gs, 0 ≤ g.pot) :
    (∀ g' ∈ (resolveGiveaway cfg now aok gs gid src).1, 0 ≤ g'.pot) ∧
    (∀ g' ∈ (ddRespond gs gid wid uid acc src).1, 0 ≤ g'.pot) ∧
    (∀ g' ∈ ddTimeout gs gid, 0 ≤ g'.pot) := by
  refine ⟨?_, ?_, ?_⟩
  · unfold resolveGiveaway
    cases hfind : findG gs gid with
    | none => simpa using hpos
    | some g =>
      have hg : g ∈ gs := List.mem_of_find?_eq_some hfind
      by_cases hend : g.ended = true
      · simpa [hend] using hpos
      · simp only [Bool.not_eq_true] at hend
        rcases hdn : drawNext src with ⟨o, src1⟩
        cases o with
        | none =>
          simp only [hend, hdn, Bool.false_eq_true, if_false]
          exact pot_nonneg_setG hpos (hpos g hg)
        | some roll =>
          simp only [hend, hdn, Bool.false_eq_true, if_false]
          by_cases hc : (g.entries.filter (candidate roll)).isEmpty = true
          · simp only [hc, if_true]
            exact pot_nonneg_setG hpos (hpos g hg)
          · simp only [hc, if_false]
            rcases hpw : pickWinner (g.entries.filter (candidate roll)) src1
              with ⟨fwo, rc, src2⟩
            cases fwo with
            | none => simpa using hpos
            | some fw =>
              by_cases ha : aok = true
              · simp only [ha, if_true]
                exact pot_nonneg_setG hpos (le_max_left _ _)
              · simp only [ha, if_false]
                exact pot_nonneg_setG hpos (le_max_left _ _)
  · unfold ddRespond
    cases hfind : findG gs gid with
    | none => simpa using hpos
    | some g =>
      have hg : g ∈ gs := List.mem_of_find?_eq_some hfind
      cases hw : g.winner with
      | none => simp only [hw]; simpa using hpos
      | some w =>
        by_cases hu : uid = wid
        · cases hdd : g.doubleDown with
          | none => simp only [hw, hu, hdd]; simpa using hpos
          | some dd =>
            by_cases hnp : dd.state = "pending"
            · by_cases hacc : acc = true
              · rcases hdn : drawNext src with ⟨o, srcA⟩
                cases o with
                | none => simp only [hw, hu, hdd, hnp, hacc, hdn]; simpa using hpos
                | some r =>
                  by_cases h50 : 50 ≤ r
                  · simp only [hw, hu, hdd, hnp, hacc, hdn]
                    simp [h50]
                    exact pot_nonneg_setG hpos le_rfl
                  · simp only [hw, hu, hdd, hnp, hacc, hdn]
                    simp [h50]
                    exact pot_nonneg_setG hpos
                      (add_nonneg (hpos g hg) (le_max_left _ _))
              · simp only [Bool.not_eq_true] at hacc
                simp only [hw, hu, hdd, hnp, hacc]
                simp
                exact pot_nonneg_setG hpos (hpos g hg)
            · simp only [hw, hu, hdd]
              simp [hnp]
              simpa using hpos
        · simp only [hw]
          simp [hu]
          simpa using hpos
  · unfold ddTimeout
    cases hfind : findG gs gid with
    | none => simpa using hpos
    | some g =>
      have hg : g ∈ gs := List.mem_of_find?_eq_some hfind
      cases hdd : g.doubleDown with
      | none => simp only [hdd]; simpa using hpos
      | some dd =>
        by_cases hnp : (dd.state == "pending") = true
        · simp only [hdd, hnp, if_true]
          exact pot_nonneg_setG hpos (hpos g hg)
        · simp only [hdd, hnp, if_false]
          simpa using hpos

/-- Witness for C9 on the concrete pending fixture. -/
theorem c9_witness :
    (∀ g ∈ [gPending], 0 ≤ g.pot) ∧
    ((∀ g' ∈ (resolveGiveaway cfg0 0 true [gPending] "G-1" [some 49]).1,
        0 ≤ g'.pot) ∧
     (∀ g' ∈ (ddRespond [gPending] "G-1" "u1" "u1" true [some 49]).1,
        0 ≤ g'.pot) ∧
     (∀ g' ∈ ddTimeout [gPending] "G-1", 0 ≤ g'.pot)) :=
  ⟨by intro g hg; simp at hg; subst hg; norm_num [gPending],
   c9_pot_nonneg cfg0 0 true [gPending] "G-1" "u1" "u1" true [some 49]
     (by intro g hg; simp at hg; subst hg; norm_num [gPending])⟩

/-- Probability following the words of the spec: under gives
`(main+1)/101`, over gives `(101-main)/101`, clamped to a minimum of
`1/101`. -/
def specProbability (choice : String) (main : Int) : ℚ :=
  max (if choice == "under" then ((main : ℚ) + 1) / 101
       else (101 - (main : ℚ)) / 101) (1/101)

/-- Payout following the words of the spec, for comparison with the
source-translated `payoutWinner`: multiplier `(1/probability)*(1-houseEdge)`,
base win truncated to two decimals, pot share `floor(pot*pct/100)` with the
low-profile fallback, final payout their sum, pot reduced by the share and
floored at zero. -/
def specPayout (cfg : Config) (fw : Entry) (pot : ℚ) : Winner × ℚ :=
  let prob := specProbability fw.choice fw.main
  let multiplier := (1 / prob) * (1 - cfg.houseEdge.getD (2/100))
  let stake := fw.stakeC.getD 1
  let baseWin : ℚ := (⌊stake * multiplier * 100⌋ : ℚ) / 100
  let share : ℚ := (⌊pot * (potSharePercentOf cfg fw.riskProfile / 100)⌋ : ℚ)
  ({ userId := fw.userId, username := fw.username, main := fw.main,
     tiebreak := fw.tiebreak, choice := fw.choice, stake := stake,
     payoutC := baseWin + share, baseWinC := baseWin,
     potShareC := share },
   max 0 (pot - share))

/-- C3: for a winning entry with main in 0..100 the code's payout agrees
with the spec formula (probability clamped at 1/101, base win plus
pot share, unknown risk profile falling back to low), and the returned pot
is the old pot minus the share, floored at zero. -/
theorem c3_payout_formula (cfg : Config) (fw : Entry) (pot : ℚ)
    (h0 : 0 ≤ fw.main) (h1 : fw.main ≤ 100) :
    payoutWinner cfg fw pot = specPayout cfg fw pot ∧
    (1/101 : ℚ) ≤ specProbability fw.choice fw.main ∧
    (cfg.riskProfiles fw.riskProfile = none →
      potSharePercentOf cfg fw.riskProfile =
        ((cfg.riskProfiles "low").map RiskProfile.potSharePercent).getD 0) ∧
    (payoutWinner cfg fw pot).1.payoutC =
      (payoutWinner cfg fw pot).1.baseWinC +
        (payoutWinner cfg fw pot).1.potShareC ∧
    (payoutWinner cfg fw pot).2 =
      max 0 (pot - (payoutWinner cfg fw pot).1.potShareC) := by
  have hm0 : (0 : ℚ) ≤ (fw.main : ℚ) := by exact_mod_cast h0
  have hm1 : (fw.main : ℚ) ≤ 100 := by exact_mod_cast h1
  have hp0 : (1/101 : ℚ) ≤
      (if fw.choice == "under" then ((fw.main : ℚ) + 1) / 101
       else (101 - (fw.main : ℚ)) / 101) := by
    by_cases hc : (fw.choice == "under") = true
    · rw [if_pos hc, div_le_div_iff (by norm_num) (by norm_num)]
      nlinarith
    · rw [if_neg hc, div_le_div_iff (by norm_num) (by norm_num)]
      nlinarith
  have hclamp :
      (if (if fw.choice == "under" then ((fw.main : ℚ) + 1) / 101
           else (101 - (fw.main : ℚ)) / 101) ≤ 0 then (1/101 : ℚ)
       else (if fw.choice == "under" then ((fw.main : ℚ) + 1) / 101
             else (101 - (fw.main : ℚ)) / 101)) =
      specProbability fw.choice fw.main := by
    rw [if_neg (not_le.mpr (lt_of_lt_of_le (by norm_num) hp0))]
    unfold specProbability
    rw [max_eq_left hp0]
  refine ⟨?_, ?_, ?_, rfl, rfl⟩
  · simp only [payoutWinner, specPayout]
    rw [hclamp]
  · unfold specProbability
    exact le_max_right _ _
  · intro h
    simp [potSharePercentOf, h, Option.orElse]

/-- A concrete entry used by witnesses: main 50, under, low risk. -/
def e0 : Entry :=
  { entryId := "u1-0", userId := "u1", username := "alice", main := 50,
    tiebreak := 10, stakeC := some 1, choice := "under",
    riskProfile := "low", joinedAt := 0 }

/-- Witness for C3 at the concrete entry `e0` and pot 1000. -/
theorem c3_witness :
    (0 ≤ e0.main) ∧ (e0.main ≤ 100) ∧
    (payoutWinner cfg0 e0 1000 = specPayout cfg0 e0 1000 ∧
    (1/101 : ℚ) ≤ specProbability e0.choice e0.main ∧
    (cfg0.riskProfiles e0.riskProfile = none →
      potSharePercentOf cfg0 e0.riskProfile =
        ((cfg0.riskProfiles "low").map RiskProfile.potSharePercent).getD 0) ∧
    (payoutWinner cfg0 e0 1000).1.payoutC =
      (payoutWinner cfg0 e0 1000).1.baseWinC +
        (payoutWinner cfg0 e0 1000).1.potShareC ∧
    (payoutWinner cfg0 e0 1000).2 =
      max 0 (1000 - (payoutWinner cfg0 e0 1000).1.potShareC)) :=
  ⟨by decide, by decide, c3_payout_formula cfg0 e0 1000 (by decide) (by decide)⟩

/-- The winner path of resolution: with a successful roll, at least one
candidate, and a successful winner pick, the persisted giveaway carries
the payout, and the pending double-down sub-state exactly when the
announcement edit succeeded. -/
lemma resolve_winner_path (cfg : Config) (now : Int) (aok : Bool)
    (gs : List Giveaway) (gid : String) (roll : Int)
    (rest src2 : List (Option Int)) (g : Giveaway) (fw : Entry)
    (rcount : Nat) (x : Entry)
    (hfind : findG gs gid = some g) (hend : g.ended = false)
    (hx : x ∈ g.entries) (hcx : candidate roll x = true)
    (hpick : pickWinner (g.entries.filter (candidate roll)) rest =
      (some fw, rcount, src2)) :
    resolveGiveaway cfg now aok gs gid (some roll :: rest) =
      (setG gs gid
        (if aok then
          { g with
              ended := true, roll := some roll,
              pot := (payoutWinner cfg fw g.pot).2,
              winner := some (payoutWinner cfg fw g.pot).1,
              result := some (GResult.resolvedRes roll rcount),
              doubleDown := some
                { state := "pending", deadline := now + sixHoursMs,
                  winnerId := fw.userId } }
        else
          { g with
              ended := true, roll := some roll,
              pot := (payoutWinner cfg fw g.pot).2,
              winner := some (payoutWinner cfg fw g.pot).1,
              result := some (GResult.resolvedRes roll rcount) }),
       src2) := by
  have hnot : ¬ (∀ a ∈ g.entries, candidate roll a = false) := by
    intro hall
    rw [hall x hx] at hcx
    simp at hcx
  unfold resolveGiveaway
  rw [hfind]
  simp only [hend, Bool.false_eq_true, if_false, drawNext]
  simp [hnot, hpick]
  by_cases ha : aok = true <;> simp [ha]

/-- A concrete open giveaway holding the single entry `e0`. -/
def gOpen : Giveaway :=
  { id := "G-1", prize := "p", pot := 1000, entries := [e0], ended := false,
    roll := none, winner := none, result := none, doubleDown := none }

/-- C8 counterexample: on the concrete giveaway resolving with a winner,
when the announcement edit fails (`announceOk = false`) the persisted
drawing has a winner but NO double-down sub-state: the presentation hook
failure does prevent the state change, contradicting the claim. -/
theorem c8_counterexample_hook_failure_blocks_double_down :
    (findG (resolveGiveaway cfg0 0 false [gOpen] "G-1" [some 50]).1
        "G-1").map (fun g => (g.winner.isSome, g.doubleDown)) =
      some (true, none) := by
  decide

/-- C8 amended: when a drawing resolves with a winner, the pending
double-down sub-state with a deadline six hours from resolution is created
and persisted exactly when the announcement edit succeeds; when the edit
fails, the winner and payout are still persisted but no double-down
sub-state is created. -/
theorem c8_amended_double_down_needs_announce (cfg : Config) (now : Int)
    (gs : List Giveaway) (gid : String) (roll : Int)
    (rest src2 : List (Option Int)) (g : Giveaway) (fw : Entry)
    (rcount : Nat) (x : Entry)
    (hfind : findG gs gid = some g) (hend : g.ended = false)
    (hdd0 : g.doubleDown = none)
    (hx : x ∈ g.entries) (hcx : candidate roll x = true)
    (hpick : pickWinner (g.entries.filter (candidate roll)) rest =
      (some fw, rcount, src2)) :
    (findG (resolveGiveaway cfg now true gs gid (some roll :: rest)).1
        gid).map (fun g' => (g'.winner, g'.doubleDown)) =
      some (some (payoutWinner cfg fw g.pot).1,
            some ({ state := "pending", deadline := now + sixHoursMs,
                    winnerId := fw.userId } : DDState)) ∧
    (findG (resolveGiveaway cfg now false gs gid (some roll :: rest)).1
        gid).map (fun g' => (g'.winner, g'.doubleDown)) =
      some (some (payoutWinner cfg fw g.pot).1, none) := by
  have hid0 := findG_id hfind
  constructor
  · rw [resolve_winner_path cfg now true gs gid roll rest src2 g fw rcount x
      hfind hend hx hcx hpick]
    have hid : (({ g with
        ended := true, roll := some roll,
        pot := (payoutWinner cfg fw g.pot).2,
        winner := some (payoutWinner cfg fw g.pot).1,
        result := some (GResult.resolvedRes roll rcount),
        doubleDown := some
          { state := "pending", deadline := now + sixHoursMs,
            winnerId := fw.userId } } : Giveaway)).id = gid := hid0
    rw [if_pos rfl]
    rw [findG_setG hfind hid]
    rfl
  · rw [resolve_winner_path cfg now false gs gid roll rest src2 g fw rcount x
      hfind hend hx hcx hpick]
    have hid : (({ g with
        ended := true, roll := some roll,
        pot := (payoutWinner cfg fw g.pot).2,
        winner := some (payoutWinner cfg fw g.pot).1,
        result := some (GResult.resolvedRes roll rcount) } : Giveaway)).id =
        gid := hid0
    rw [if_neg (by simp)]
    rw [findG_setG hfind hid]
    simp [hdd0]

/-- Witness for the amended C8 on the concrete open giveaway. -/
theorem c8_amended_witness :
    findG [gOpen] "G-1" = some gOpen ∧ gOpen.ended = false ∧
    gOpen.doubleDown = none ∧
    e0 ∈ gOpen.entries ∧ candidate 50 e0 = true ∧
    pickWinner (gOpen.entries.filter (candidate 50)) [] =
      (some e0, 1, []) ∧
    ((findG (resolveGiveaway cfg0 7 true [gOpen] "G-1" [some 50]).1
        "G-1").map (fun g' => (g'.winner, g'.doubleDown)) =
      some (some (payoutWinner cfg0 e0 gOpen.pot).1,
            some ({ state := "pending", deadline := 7 + sixHoursMs,
                    winnerId := e0.userId } : DDState)) ∧
    (findG (resolveGiveaway cfg0 7 false [gOpen] "G-1" [some 50]).1
        "G-1").map (fun g' => (g'.winner, g'.doubleDown)) =
      some (some (payoutWinner cfg0 e0 gOpen.pot).1, none)) :=
  ⟨by decide, by decide, by decide, by decide, by decide, by decide,
   c8_amended_double_down_needs_announce cfg0 7 [gOpen] "G-1" 50 [] []
     gOpen e0 1 e0 (by decide) (by decide) (by decide) (by decide)
     (by decide) (by decide)⟩

/-- Filtering a stably sorted list by a predicate whose satisfying
elements are pairwise related recovers the filtered original list, in
original order. -/
lemma filter_insertionSort_eq {α : Type} (r : α → α → Prop) [DecidableRel r]
    (l : List α) (p : α → Bool)
    (hp : (l.filter p).Pairwise r) :
    (l.insertionSort r).filter p = l.filter p := by
  have hsub : List.Sublist (l.filter p) (l.insertionSort r) :=
    List.sublist_insertionSort hp (List.filter_sublist l)
  have hself : (l.filter p).filter p = l.filter p :=
    List.filter_eq_self.mpr (fun a ha => (List.mem_filter.mp ha).2)
  have hsub2 : List.Sublist ((l.filter p).filter p)
      ((l.insertionSort r).filter p) :=
    hsub.filter p
  rw [hself] at hsub2
  have hlen : ((l.insertionSort r).filter p).length = (l.filter p).length :=
    ((List.perm_insertionSort r l).filter p).length_eq
  exact (hsub2.eq_of_length hlen.symm).symm

/-- C2: in a group of candidates with the same main, a unique maximal
tiebreak holder is the representative regardless of input order; when
k > 1 entries are tied at the maximal tiebreak the representative is the
entry at the freshly drawn index of the tied entries in original order,
and on a failed draw the first tied entry in original order. -/
theorem c2_group_tiebreak (arr : List Entry) (src : List (Option Int))
    (m : Int) (u : Entry)
    (hlen : 1 < arr.length)
    (hm : ∀ e ∈ arr, e.main = m)
    (hu : u ∈ arr)
    (hmax : ∀ e ∈ arr, e.tiebreak ≤ u.tiebreak) :
    (arr.filter (fun e => e.tiebreak == u.tiebreak) = [u] →
       resolveGroup arr src = (some u, src)) ∧
    (2 ≤ (arr.filter (fun e => e.tiebreak == u.tiebreak)).length →
      (∀ (r : Int) (rest : List (Option Int)),
        src = some r :: rest → 0 ≤ r →
        r < ((arr.filter (fun e => e.tiebreak == u.tiebreak)).length : Int) →
        resolveGroup arr src =
          ((arr.filter (fun e => e.tiebreak == u.tiebreak))[r.toNat]?, rest) ∧
        ((arr.filter (fun e => e.tiebreak == u.tiebreak))[r.toNat]?).isSome
          = true) ∧
      (∀ rest, src = none :: rest →
        resolveGroup arr src =
          ((arr.filter (fun e => e.tiebreak == u.tiebreak)).head?, rest))) := by
  have hlen' : (arr.insertionSort tbGe).length = arr.length :=
    List.length_insertionSort _ _
  obtain ⟨top, rest', hsort⟩ :
      ∃ top rest', arr.insertionSort tbGe = top :: rest' := by
    cases hs : arr.insertionSort tbGe with
    | nil => rw [hs] at hlen'; simp at hlen'; omega
    | cons a t => exact ⟨a, t, rfl⟩
  have htopmem : top ∈ arr := by
    have h1 : top ∈ arr.insertionSort tbGe := by
      rw [hsort]; exact List.mem_cons_self _ _
    exact (List.mem_insertionSort tbGe).mp h1
  have hsorted : (arr.insertionSort tbGe).Pairwise tbGe :=
    List.sorted_insertionSort tbGe arr
  have htopmax : ∀ e ∈ arr, e.tiebreak ≤ top.tiebreak := by
    intro e he
    have he' : e ∈ top :: rest' := by
      rw [← hsort]; exact (List.mem_insertionSort tbGe).mpr he
    rcases List.mem_cons.mp he' with h | h
    · rw [h]
    · have h2 : (top :: rest').Pairwise tbGe := hsort ▸ hsorted
      exact (List.pairwise_cons.mp h2).1 e h
  have htb : top.tiebreak = u.tiebreak :=
    le_antisymm (hmax top htopmem) (htopmax u hu)
  have hpair : (arr.filter (fun e => e.tiebreak == u.tiebreak)).Pairwise tbGe := by
    apply List.pairwise_of_forall_mem_list
    intro a ha b hb
    have ha' := (List.mem_filter.mp ha).2
    have hb' := (List.mem_filter.mp hb).2
    simp only [beq_iff_eq] at ha' hb'
    unfold tbGe
    rw [ha', hb']
  have hstable :
      (arr.insertionSort tbGe).filter (fun e => e.tiebreak == u.tiebreak) =
        arr.filter (fun e => e.tiebreak == u.tiebreak) :=
    filter_insertionSort_eq tbGe arr _ hpair
  have hpredeq : (fun e : Entry => e.tiebreak == top.tiebreak) =
      (fun e => e.tiebreak == u.tiebreak) := by
    funext e; rw [htb]
  have htied : (top :: rest').filter (fun e => e.tiebreak == top.tiebreak) =
      arr.filter (fun e => e.tiebreak == u.tiebreak) := by
    rw [hpredeq, ← hsort, hstable]
  have htopin : top ∈ (top :: rest').filter
      (fun e => e.tiebreak == top.tiebreak) :=
    List.mem_filter.mpr ⟨List.mem_cons_self _ _, by simp⟩
  have hne1 : ¬(arr.length = 1) := by omega
  constructor
  · intro hA
    have htopu : top = u := by
      have h1 := htied ▸ htopin
      rw [hA] at h1
      simpa using h1
    unfold resolveGroup
    rw [if_neg hne1, hsort]
    simp only [htied, hA, List.length_cons, List.length_nil, if_true]
    simp [htopu]
  · intro h2
    have hlent : ((top :: rest').filter
        (fun e => e.tiebreak == top.tiebreak)).length =
        (arr.filter (fun e => e.tiebreak == u.tiebreak)).length := by
      rw [htied]
    have hnot1 : ¬(((top :: rest').filter
        (fun e => e.tiebreak == top.tiebreak)).length = 1) := by
      rw [hlent]; omega
    constructor
    · intro r rest hsrc hr0 hrk
      subst hsrc
      have hrk' : r.toNat <
          (arr.filter (fun e => e.tiebreak == u.tiebreak)).length := by
        omega
      constructor
      · unfold resolveGroup
        rw [if_neg hne1, hsort]
        simp only [hnot1, if_false, drawNext]
        simp [hr0, htied]
      · rw [List.getElem?_eq_getElem hrk']
        rfl
    · intro rest hsrc
      subst hsrc
      unfold resolveGroup
      rw [if_neg hne1, hsort]
      simp only [hnot1, if_false, drawNext]
      simp [htied]

/-- A concrete entry tied with `eT2` on both main and tiebreak. -/
def eT1 : Entry :=
  { entryId := "a-0", userId := "a", username := "a", main := 30,
    tiebreak := 40, stakeC := some 1, choice := "under",
    riskProfile := "low", joinedAt := 0 }

/-- A concrete entry tied with `eT1` on both main and tiebreak. -/
def eT2 : Entry :=
  { entryId := "b-0", userId := "b", username := "b", main := 30,
    tiebreak := 40, stakeC := some 1, choice := "under",
    riskProfile := "low", joinedAt := 1 }

/-- Witness for C2 on two entries tied at the maximal tiebreak. -/
theorem c2_witness :
    (1 < [eT1, eT2].length) ∧
    (∀ e ∈ [eT1, eT2], e.main = 30) ∧
    eT1 ∈ [eT1, eT2] ∧
    (∀ e ∈ [eT1, eT2], e.tiebreak ≤ eT1.tiebreak) ∧
    (([eT1, eT2].filter (fun e => e.tiebreak == eT1.tiebreak) = [eT1] →
       resolveGroup [eT1, eT2] [some 1] = (some eT1, [some 1])) ∧
    (2 ≤ ([eT1, eT2].filter (fun e => e.tiebreak == eT1.tiebreak)).length →
      (∀ (r : Int) (rest : List (Option Int)),
        [some 1] = some r :: rest → 0 ≤ r →
        r < (([eT1, eT2].filter
          (fun e => e.tiebreak == eT1.tiebreak)).length : Int) →
        resolveGroup [eT1, eT2] [some 1] =
          (([eT1, eT2].filter (fun e => e.tiebreak == eT1.tiebreak))[r.toNat]?,
           rest) ∧
        (([eT1, eT2].filter
          (fun e => e.tiebreak == eT1.tiebreak))[r.toNat]?).isSome = true) ∧
      (∀ rest, [some 1] = none :: rest →
        resolveGroup [eT1, eT2] [some 1] =
          (([eT1, eT2].filter (fun e => e.tiebreak == eT1.tiebreak)).head?,
           rest)))) :=
  ⟨by decide, by decide, by decide, by decide,
   c2_group_tiebreak [eT1, eT2] [some 1] 30 eT1 (by decide) (by decide)
     (by decide) (by decide)⟩

/-- Witness for C5: after a first concrete resolution the giveaway is
ended and a second resolution is a no-op. -/
theorem c5_witness :
    findG (resolveGiveaway cfg0 0 true [gEmpty] "G-1" [some 3]).1 "G-1" =
      some { gEmpty with
               ended := true, roll := some 3, winner := none,
               result := some (GResult.noWinners 3) } ∧
    ({ gEmpty with
         ended := true, roll := some 3, winner := none,
         result := some (GResult.noWinners 3) } : Giveaway).ended = true ∧
    resolveGiveaway cfg0 1 false
        (resolveGiveaway cfg0 0 true [gEmpty] "G-1" [some 3]).1 "G-1"
        [some 9] =
      ((resolveGiveaway cfg0 0 true [gEmpty] "G-1" [some 3]).1, [some 9]) :=
  ⟨by decide, by decide,
   c5_resolution_idempotent cfg0 cfg0 0 1 true false [gEmpty] "G-1"
     [some 3] [some 9]
     { gEmpty with
         ended := true, roll := some 3, winner := none,
         result := some (GResult.noWinners 3) }
     (by decide) (by decide)⟩

/-- C10 counterexample: a negative stake field passes validation and is
stored as the entry's stake, contradicting the claim that every stored
entry has a positive stake. -/
theorem c10_counterexample_negative_stake :
    (findG (submitEntry [gEmpty] "G-1" "u1" "alice" (some 40) (some 10)
        (some (-5)) "under" "low" 0).1 "G-1").map
      (fun g => g.entries.map (fun e => e.stakeC)) = some [some (-5)] ∧
    ¬ (0 < (-5 : ℚ)) := by
  constructor
  · decide
  · norm_num

/-- C10 amended: a submission is appended only when main and tiebreak are
integers in 0..100, choice is under or over, risk is low or high, the
drawing exists and has not ended; otherwise it is rejected with the
corresponding failure kind and the store is untouched.  The stored entry's
stake is the parsed stake field, defaulting to 1 when the field is empty;
the stake is not validated and need not be positive. -/
theorem c10_amended_entry_validation (gs : List Giveaway)
    (gid uid uname : String) (mainP tiebreakP : Option Int)
    (stakeP : Option ℚ) (choice risk : String) (now : Int) :
    (mainP = none →
      submitEntry gs gid uid uname mainP tiebreakP stakeP choice risk now =
        (gs, SubmitReply.invalidMain)) ∧
    (∀ mv, mainP = some mv → (mv < 0 ∨ 100 < mv) →
      submitEntry gs gid uid uname mainP tiebreakP stakeP choice risk now =
        (gs, SubmitReply.invalidMain)) ∧
    (∀ mv, mainP = some mv → 0 ≤ mv → mv ≤ 100 →
      (tiebreakP = none →
        submitEntry gs gid uid uname mainP tiebreakP stakeP choice risk now =
          (gs, SubmitReply.invalidTiebreak)) ∧
      (∀ tv, tiebreakP = some tv → (tv < 0 ∨ 100 < tv) →
        submitEntry gs gid uid uname mainP tiebreakP stakeP choice risk now =
          (gs, SubmitReply.invalidTiebreak)) ∧
      (∀ tv, tiebreakP = some tv → 0 ≤ tv → tv ≤ 100 →
        (choice ≠ "under" → choice ≠ "over" →
          submitEntry gs gid uid uname mainP tiebreakP stakeP choice risk
            now = (gs, SubmitReply.invalidChoice)) ∧
        ((choice = "under" ∨ choice = "over") →
          (risk ≠ "low" → risk ≠ "high" →
            submitEntry gs gid uid uname mainP tiebreakP stakeP choice risk
              now = (gs, SubmitReply.invalidRisk)) ∧
          ((risk = "low" ∨ risk = "high") →
            (findG gs gid = none →
              submitEntry gs gid uid uname mainP tiebreakP stakeP choice
                risk now = (gs, SubmitReply.notFound)) ∧
            (∀ g, findG gs gid = some g → g.ended = true →
              submitEntry gs gid uid uname mainP tiebreakP stakeP choice
                risk now = (gs, SubmitReply.alreadyEnded)) ∧
            (∀ g, findG gs gid = some g → g.ended = false →
              submitEntry gs gid uid uname mainP tiebreakP stakeP choice
                risk now =
                (setG gs gid
                  { g with
                      entries := g.entries ++
                        [{ entryId := uid ++ "-" ++ toString now,
                           userId := uid, username := uname,
                           main := mv, tiebreak := tv,
                           stakeC := some (stakeP.getD 1),
                           choice := choice, riskProfile := risk,
                           joinedAt := now }] },
                 SubmitReply.joined)))))) := by
  refine ⟨?_, ?_, ?_⟩
  · intro h
    subst h
    rfl
  · intro mv hm hout
    subst hm
    simp only [submitEntry]
    rw [if_pos hout]
  · intro mv hm hm0 hm1
    subst hm
    have hmok : ¬(mv < 0 ∨ 100 < mv) := by omega
    refine ⟨?_, ?_, ?_⟩
    · intro h
      subst h
      simp only [submitEntry]
      rw [if_neg hmok]
    · intro tv ht htout
      subst ht
      simp only [submitEntry]
      rw [if_neg hmok, if_pos htout]
    · intro tv ht ht0 ht1
      subst ht
      have htok : ¬(tv < 0 ∨ 100 < tv) := by omega
      refine ⟨?_, ?_⟩
      · intro hcu hco
        simp only [submitEntry]
        rw [if_neg hmok, if_neg htok, if_pos ⟨hcu, hco⟩]
      · intro hc
        have hcok : ¬(choice ≠ "under" ∧ choice ≠ "over") := by
          rcases hc with h | h <;> simp [h]
        refine ⟨?_, ?_⟩
        · intro hru hrh
          simp only [submitEntry]
          rw [if_neg hmok, if_neg htok, if_neg hcok, if_pos ⟨hru, hrh⟩]
        · intro hr
          have hrok : ¬(risk ≠ "low" ∧ risk ≠ "high") := by
            rcases hr with h | h <;> simp [h]
          refine ⟨?_, ?_, ?_⟩
          · intro hfind
            simp only [submitEntry]
            rw [if_neg hmok, if_neg htok, if_neg hcok, if_neg hrok, hfind]
          · intro g hfind hend
            simp only [submitEntry]
            rw [if_neg hmok, if_neg htok, if_neg hcok, if_neg hrok, hfind]
            simp [hend]
          · intro g hfind hend
            simp only [submitEntry]
            rw [if_neg hmok, if_neg htok, if_neg hcok, if_neg hrok, hfind]
            simp [hend]

end GiveawayApp
